import Mathlib

/-!
Verification development for the oracle-card application.

This file gives a shallow embedding, in Lean 4, of the deck engine
(`src/lib/deck.ts`), the card catalog (`src/decks/defaultDeck.ts`), the
shuffle animation timeline (`startShuffle` in `app/index.tsx` and the
`ShuffleSwirl` component), the selection/confirmation state machine, the
card-reveal state machine, and the history/journal persistence logic of
`app/index.tsx`, together with theorems settling the specification's
claims about them.

Modelling conventions:
- JavaScript's `Math.random()` stream is passed explicitly as a function
  `rands : Nat -> Rat` (the value consumed at a given loop index).
- `new Date(s).getTime()` is passed explicitly as `dateMillis : String -> Int`.
- JavaScript array indexing, which can yield `undefined`, is embedded as
  `Option`-returning lookup (`l[i]?`).
- React state setters become explicit state-record updates; an
  `Animated.timing` animation that will settle at its `toValue` is modelled
  by the settled value, and queued (not yet run) animations are modelled as
  explicit lists of animation steps.
-/

namespace Oracle

/-- The `CardType` union `"card" | "rules" | "placeholder"` of
`src/decks/defaultDeck.ts`, as a closed variant. -/
inductive CardType where
  | card
  | rules
  | placeholder
deriving DecidableEq

/-- The `Card` record of `src/decks/defaultDeck.ts`.  Image assets are
external resources; the embedding keeps the `id`, `title` and `type` fields
and records the presence of the optional `detailImage` as a Bool (the only
fact about it the control logic inspects). -/
structure Card where
  id : String
  title : String
  detailImage : Bool
  type : CardType
deriving DecidableEq

/-- `DeckState` of `src/lib/deck.ts`: fixed catalog, current shuffled order,
cursor index. -/
structure DeckState where
  cards : List Card
  order : List Card
  index : Nat
deriving DecidableEq

/-- The destructuring swap `[next[i], next[j]] = [next[j], next[i]]` inside
`shuffle`: read both cells, then write them back exchanged.  When either
index is out of range (which never happens on the real control path, since
`Math.random()` is in `[0,1)`) the list is returned unchanged. -/
def swapAt {α : Type} (l : List α) (i j : Nat) : List α :=
  match l[i]?, l[j]? with
  | some a, some b => (l.set i b).set j a
  | _, _ => l

/-- The `for (let i = next.length - 1; i > 0; i -= 1)` loop body of
`shuffle` in `src/lib/deck.ts`: at loop index `i`, pick
`j = Math.floor(Math.random() * (i + 1))` and swap positions `i` and `j`.
`rands i` is the `Math.random()` value consumed at loop index `i`. -/
def shuffleLoop (rands : Nat → ℚ) : List Card → Nat → List Card
  | next, 0 => next
  | next, i + 1 =>
      let j : Int := Int.floor (rands (i + 1) * ((i : ℚ) + 1 + 1))
      shuffleLoop rands (swapAt next (i + 1) j.toNat) i

/-- `shuffle` of `src/lib/deck.ts`: Fisher–Yates on a copy of the input
(the embedding is pure, so the copy `const next = [...cards]` is the value
passed into the loop and the input list is untouched by construction). -/
def shuffle (rands : Nat → ℚ) (cards : List Card) : List Card :=
  shuffleLoop rands cards (cards.length - 1)

/-- The binding
`const order = state.order.length === 0 ? shuffle(state.cards) : state.order`
opening `drawNext` (the lazy initial shuffle). -/
def effectiveOrder (rands : Nat → ℚ) (state : DeckState) : List Card :=
  if state.order.length = 0 then shuffle rands state.cards else state.order

/-- `drawNext` of `src/lib/deck.ts`.  The returned card is `Option`-valued
because the degenerate branch returns `state.cards[0]`, which is
`undefined` on an empty catalog. -/
def drawNext (rands : Nat → ℚ) (state : DeckState) : DeckState × Option Card :=
  let order := effectiveOrder rands state
  let total := order.length
  if total = 0 then
    (state, state.cards[0]?)
  else
    let index := state.index % total
    let card := order[index]?
    ({ state with order := order, index := (index + 1) % total }, card)

/-- `createPlaceholderCard` of `src/decks/defaultDeck.ts`. -/
def createPlaceholderCard (index : Nat) : Card :=
  { id := "card-" ++ toString index
    title := "Card " ++ toString index
    detailImage := true
    type := CardType.placeholder }

/-- The first, hand-written entry of the `cards` catalog
(`"mycelial-network"`, the only entry of type `"card"`). -/
def mycelialNetworkCard : Card :=
  { id := "mycelial-network"
    title := "Mycelial Network"
    detailImage := true
    type := CardType.card }

/-- The `cards` catalog of `src/decks/defaultDeck.ts`: the mycelial-network
card followed by 35 placeholder cards numbered 2..36. -/
def catalogCards : List Card :=
  mycelialNetworkCard :: (List.range 35).map (fun index => createPlaceholderCard (index + 2))

/-- `drawableCards = cards.filter((card) => card.type === "card")`. -/
def drawableCards : List Card :=
  catalogCards.filter (fun c => c.type == CardType.card)

/-- The initial deck state of `app/index.tsx`:
`useState<DeckState>({ cards: drawableCards, order: [], index: 0 })`. -/
def initialDeckState : DeckState :=
  { cards := drawableCards, order := [], index := 0 }

/- ### Permutation facts about the shuffle -/

theorem cons_set_perm {α : Type} :
    ∀ (xs : List α) (j : Nat) (x b : α), xs[j]? = some b →
      (b :: xs.set j x).Perm (x :: xs)
  | [], j, x, b, h => by simp at h
  | y :: t, 0, x, b, h => by
      simp only [List.getElem?_cons_zero, Option.some.injEq] at h
      rw [← h]
      simpa [List.set] using List.Perm.swap x y t
  | y :: t, j + 1, x, b, h => by
      simp only [List.getElem?_cons_succ] at h
      have ih := cons_set_perm t j x b h
      have h1 : (b :: (y :: t).set (j + 1) x) = b :: y :: t.set j x := by
        simp [List.set]
      rw [h1]
      exact (List.Perm.swap y b _).trans ((ih.cons y).trans (List.Perm.swap x y t))

theorem set_set_perm {α : Type} :
    ∀ (l : List α) (i j : Nat) (a b : α), l[i]? = some a → l[j]? = some b →
      ((l.set i b).set j a).Perm l
  | [], i, j, a, b, hi, _ => by simp at hi
  | y :: t, 0, 0, a, b, hi, hj => by
      simp only [List.getElem?_cons_zero, Option.some.injEq] at hi hj
      rw [← hi, ← hj]
      simp [List.set]
  | y :: t, 0, j + 1, a, b, hi, hj => by
      simp only [List.getElem?_cons_zero, Option.some.injEq] at hi
      simp only [List.getElem?_cons_succ] at hj
      rw [← hi]
      have h1 : ((y :: t).set 0 b).set (j + 1) y = b :: t.set j y := by simp [List.set]
      rw [h1]
      exact cons_set_perm t j y b hj
  | y :: t, i + 1, 0, a, b, hi, hj => by
      simp only [List.getElem?_cons_zero, Option.some.injEq] at hj
      simp only [List.getElem?_cons_succ] at hi
      rw [← hj]
      have h1 : ((y :: t).set (i + 1) y).set 0 a = a :: t.set i y := by simp [List.set]
      rw [h1]
      exact cons_set_perm t i y a hi
  | y :: t, i + 1, j + 1, a, b, hi, hj => by
      simp only [List.getElem?_cons_succ] at hi hj
      have ih := set_set_perm t i j a b hi hj
      have : ((y :: t).set (i + 1) b).set (j + 1) a = y :: (t.set i b).set j a := by
        simp [List.set]
      rw [this]
      exact ih.cons y

theorem swapAt_perm {α : Type} (l : List α) (i j : Nat) : (swapAt l i j).Perm l := by
  unfold swapAt
  cases hi : l[i]? with
  | none => exact List.Perm.refl l
  | some a =>
    cases hj : l[j]? with
    | none => exact List.Perm.refl l
    | some b => exact set_set_perm l i j a b hi hj

theorem shuffleLoop_perm (rands : Nat → ℚ) :
    ∀ (fuel : Nat) (next : List Card), (shuffleLoop rands next fuel).Perm next := by
  intro fuel
  induction fuel with
  | zero => intro next; exact List.Perm.refl next
  | succ i ih =>
      intro next
      exact (ih _).trans (swapAt_perm next (i + 1) _)

theorem shuffle_perm (rands : Nat → ℚ) (cards : List Card) :
    (shuffle rands cards).Perm cards :=
  shuffleLoop_perm rands (cards.length - 1) cards

theorem shuffle_length (rands : Nat → ℚ) (cards : List Card) :
    (shuffle rands cards).length = cards.length :=
  (shuffle_perm rands cards).length_eq

/-- C2: for every non-empty card list, `shuffle` returns a permutation of
its input (same multiset of elements, hence same length).  The
non-mutation clause holds by construction of the embedding: the source
copies the input (`const next = [...cards]`) and only the copy is swapped
in place, which the pure state-passing `shuffleLoop` reflects — the input
list value is never rebound. -/
theorem shuffle_is_permutation (rands : Nat → ℚ) (cards : List Card)
    (h : cards ≠ []) :
    (shuffle rands cards).Perm cards ∧ (shuffle rands cards).length = cards.length :=
  ⟨shuffle_perm rands cards, shuffle_length rands cards⟩

/-- Witness for `shuffle_is_permutation` at a concrete two-card list and
concrete random source. -/
theorem shuffle_is_permutation_witness :
    ([mycelialNetworkCard, createPlaceholderCard 2] : List Card) ≠ [] ∧
      ((shuffle (fun _ => 1/2) [mycelialNetworkCard, createPlaceholderCard 2]).Perm
        [mycelialNetworkCard, createPlaceholderCard 2] ∧
      (shuffle (fun _ => 1/2) [mycelialNetworkCard, createPlaceholderCard 2]).length =
        ([mycelialNetworkCard, createPlaceholderCard 2] : List Card).length) :=
  ⟨by decide, shuffle_is_permutation (fun _ => 1/2) _ (by decide)⟩

/- ### Iterated draws -/

/-- `k` successive `drawNext` calls threading the returned state, as the
app performs them; `randsFam k` is the random stream available to the
`k`-th call (it is only consulted when the order is empty). Returns the
final state and the drawn cards in call order. -/
def drawSeq (randsFam : Nat → Nat → ℚ) (s : DeckState) : Nat → DeckState × List (Option Card)
  | 0 => (s, [])
  | n + 1 =>
      let prev := drawSeq randsFam s n
      let r := drawNext (randsFam n) prev.1
      (r.1, prev.2 ++ [r.2])

theorem drawSeq_succ_fst (randsFam : Nat → Nat → ℚ) (s : DeckState) (n : Nat) :
    (drawSeq randsFam s (n + 1)).1 = (drawNext (randsFam n) (drawSeq randsFam s n).1).1 := rfl

theorem drawSeq_succ_snd (randsFam : Nat → Nat → ℚ) (s : DeckState) (n : Nat) :
    (drawSeq randsFam s (n + 1)).2 =
      (drawSeq randsFam s n).2 ++ [(drawNext (randsFam n) (drawSeq randsFam s n).1).2] := rfl

theorem drawNext_eq_degenerate (rands : Nat → ℚ) (s : DeckState)
    (h : (effectiveOrder rands s).length = 0) :
    drawNext rands s = (s, s.cards[0]?) := by
  unfold drawNext
  rw [if_pos h]

theorem drawNext_eq_populate (rands : Nat → ℚ) (s : DeckState)
    (h : ¬ (effectiveOrder rands s).length = 0) :
    drawNext rands s =
      ({ s with
          order := effectiveOrder rands s
          index := (s.index % (effectiveOrder rands s).length + 1) %
            (effectiveOrder rands s).length },
        (effectiveOrder rands s)[s.index % (effectiveOrder rands s).length]?) := by
  unfold drawNext
  rw [if_neg h]

theorem effectiveOrder_of_ne_nil (rands : Nat → ℚ) (s : DeckState) (h : s.order ≠ []) :
    effectiveOrder rands s = s.order := by
  have hl : ¬ s.order.length = 0 := by
    simpa [List.length_eq_zero] using h
  unfold effectiveOrder
  rw [if_neg hl]

theorem drawNext_fst_of_order_ne_nil (rands : Nat → ℚ) (s : DeckState) (h : s.order ≠ []) :
    (drawNext rands s).1 =
      { s with index := (s.index % s.order.length + 1) % s.order.length } := by
  have hl : ¬ s.order.length = 0 := by
    simpa [List.length_eq_zero] using h
  rw [drawNext_eq_populate rands s (by rwa [effectiveOrder_of_ne_nil rands s h]),
    effectiveOrder_of_ne_nil rands s h]

theorem drawNext_snd_of_order_ne_nil (rands : Nat → ℚ) (s : DeckState) (h : s.order ≠ []) :
    (drawNext rands s).2 = s.order[s.index % s.order.length]? := by
  rw [drawNext_eq_populate rands s
      (by rw [effectiveOrder_of_ne_nil rands s h]
          simpa [List.length_eq_zero] using h),
    effectiveOrder_of_ne_nil rands s h]

theorem drawSeq_state (randsFam : Nat → Nat → ℚ) (s : DeckState)
    (h : s.order ≠ []) (h0 : s.index = 0) :
    ∀ k, (drawSeq randsFam s k).1 = { s with index := k % s.order.length } := by
  intro k
  induction k with
  | zero =>
      show s = { s with index := 0 % s.order.length }
      rw [Nat.zero_mod, ← h0]
  | succ k ih =>
      have hne : ({ s with index := k % s.order.length } : DeckState).order ≠ [] := h
      rw [drawSeq_succ_fst, ih, drawNext_fst_of_order_ne_nil _ _ hne]
      have hmod : (k % s.order.length % s.order.length + 1) % s.order.length =
          (k + 1) % s.order.length := by
        rw [Nat.mod_mod_of_dvd k (dvd_refl s.order.length)]
        conv_rhs => rw [Nat.add_mod]
        rw [Nat.add_mod (k % s.order.length) 1]
        rw [Nat.mod_mod_of_dvd k (dvd_refl s.order.length)]
      simp only [hmod]

theorem drawSeq_cards (randsFam : Nat → Nat → ℚ) (s : DeckState)
    (h : s.order ≠ []) (h0 : s.index = 0) :
    ∀ m, m ≤ s.order.length → (drawSeq randsFam s m).2 = (s.order.take m).map some := by
  intro m
  induction m with
  | zero => intro _; simp [drawSeq]
  | succ m ih =>
      intro hm
      have hm' : m ≤ s.order.length := Nat.le_of_succ_le hm
      have hmlt : m < s.order.length := hm
      have hne : ({ s with index := m % s.order.length } : DeckState).order ≠ [] := h
      rw [drawSeq_succ_snd, drawSeq_state randsFam s h h0 m, ih hm',
        drawNext_snd_of_order_ne_nil _ _ hne]
      have hmm : m % s.order.length = m := Nat.mod_eq_of_lt hmlt
      have hstep : (s.order.take (m + 1)).map some =
          (s.order.take m).map some ++ [s.order[m]?] := by
        rw [List.take_succ, List.map_append]
        congr 1
        rw [List.getElem?_eq_getElem hmlt]
        rfl
      dsimp only
      rw [Nat.mod_mod_of_dvd m (dvd_refl s.order.length), hmm, hstep]

/-- C1: for every `DeckState` whose order is non-empty (length `N`) and whose
cursor is `0`, `N` successive `drawNext` calls return exactly the cards of
`order` in order (each position exactly once), the `(N+1)`-th call returns
`order[0]` again, and no call ever replaces the `order` (or `cards`) field:
drawing with a populated order never re-shuffles, only the cursor moves. -/
theorem drawNext_cycles_through_order (randsFam : Nat → Nat → ℚ) (s : DeckState)
    (h : s.order ≠ []) (h0 : s.index = 0) :
    (drawSeq randsFam s s.order.length).2 = s.order.map some ∧
    (drawSeq randsFam s (s.order.length + 1)).2 = s.order.map some ++ [s.order[0]?] ∧
    (∀ k, (drawSeq randsFam s k).1.order = s.order ∧
      (drawSeq randsFam s k).1.cards = s.cards) := by
  refine ⟨?_, ?_, ?_⟩
  · have := drawSeq_cards randsFam s h h0 s.order.length (le_refl _)
    simpa [List.take_length] using this
  · have hne : ({ s with index := s.order.length % s.order.length } : DeckState).order ≠ [] := h
    rw [drawSeq_succ_snd, drawSeq_state randsFam s h h0 s.order.length,
      drawNext_snd_of_order_ne_nil _ _ hne]
    have hcards := drawSeq_cards randsFam s h h0 s.order.length (le_refl _)
    rw [List.take_length] at hcards
    rw [hcards]
    show s.order.map some ++ [s.order[s.order.length % s.order.length % s.order.length]?] = _
    rw [Nat.mod_self, Nat.zero_mod]
  · intro k
    rw [drawSeq_state randsFam s h h0 k]
    exact ⟨rfl, rfl⟩

/-- Witness for `drawNext_cycles_through_order` on a concrete two-card
order with cursor `0`. -/
theorem drawNext_cycles_through_order_witness :
    (({ cards := [mycelialNetworkCard, createPlaceholderCard 2],
        order := [mycelialNetworkCard, createPlaceholderCard 2],
        index := 0 } : DeckState).order ≠ [] ∧
      (drawSeq (fun _ _ => 0)
        { cards := [mycelialNetworkCard, createPlaceholderCard 2],
          order := [mycelialNetworkCard, createPlaceholderCard 2],
          index := 0 } 2).2 =
        [some mycelialNetworkCard, some (createPlaceholderCard 2)]) :=
  ⟨by decide,
    by
      have h := drawNext_cycles_through_order (fun _ _ => 0)
        { cards := [mycelialNetworkCard, createPlaceholderCard 2],
          order := [mycelialNetworkCard, createPlaceholderCard 2],
          index := 0 } (by decide) rfl
      simpa using h.1⟩

/-- C4: when the order obtained after the lazy initial shuffle is empty
(which forces the raw catalog to be empty too, since shuffling preserves
length), `drawNext` returns the state completely unchanged together with
`state.cards[0]` — the defensive "first raw card" fallback, which on an
empty catalog is the undefined value, embedded as `none`.  `drawNext` is a
total Lean function, so no exception is possible. -/
theorem drawNext_degenerate_fallback (rands : Nat → ℚ) (s : DeckState)
    (h : (effectiveOrder rands s).length = 0) :
    drawNext rands s = (s, s.cards[0]?) :=
  drawNext_eq_degenerate rands s h

/-- Witness for `drawNext_degenerate_fallback` on the fully empty deck. -/
theorem drawNext_degenerate_fallback_witness :
    ((effectiveOrder (fun _ => 0) { cards := [], order := [], index := 0 }).length = 0 ∧
      drawNext (fun _ => 0) { cards := [], order := [], index := 0 } =
        ({ cards := [], order := [], index := 0 }, none)) :=
  ⟨by decide,
    by
      have h := drawNext_degenerate_fallback (fun _ => 0)
        { cards := [], order := [], index := 0 } (by decide)
      simpa using h⟩

/- ### Deck operations reachable from the app -/

/-- The two operations the app performs on the deck state: a draw
(`drawNext`) and an explicit re-shuffle (`shuffleDeck` in `app/index.tsx`:
`order := shuffle(prev.cards)`, `index := 0`). -/
inductive DeckOp where
  | draw (rands : Nat → ℚ)
  | shuf (rands : Nat → ℚ)

/-- Apply one deck operation, returning the next state and the card the
operation produced (`none` for a re-shuffle). -/
def applyDeckOp (s : DeckState) : DeckOp → DeckState × Option Card
  | DeckOp.draw rands => drawNext rands s
  | DeckOp.shuf rands => ({ s with order := shuffle rands s.cards, index := 0 }, none)

/-- Apply a sequence of deck operations, collecting every produced card. -/
def applyDeckOps (s : DeckState) : List DeckOp → DeckState × List (Option Card)
  | [] => (s, [])
  | op :: ops =>
      let r := applyDeckOp s op
      let rest := applyDeckOps r.1 ops
      (rest.1, r.2 :: rest.2)

/-- Every card in the catalog and in the current order is drawable
(of kind `"card"`). -/
def deckAllDrawableKind (s : DeckState) : Prop :=
  (∀ c ∈ s.cards, c.type = CardType.card) ∧ (∀ c ∈ s.order, c.type = CardType.card)

theorem shuffle_mem_kind (rands : Nat → ℚ) (cards : List Card)
    (h : ∀ c ∈ cards, c.type = CardType.card) :
    ∀ c ∈ shuffle rands cards, c.type = CardType.card := by
  intro c hc
  exact h c ((shuffle_perm rands cards).mem_iff.mp hc)

theorem applyDeckOp_preserves (s : DeckState) (op : DeckOp)
    (hs : deckAllDrawableKind s) :
    deckAllDrawableKind (applyDeckOp s op).1 ∧
      (∀ c, (applyDeckOp s op).2 = some c → c.type = CardType.card) := by
  cases op with
  | shuf rands =>
      refine ⟨⟨hs.1, shuffle_mem_kind rands s.cards hs.1⟩, ?_⟩
      intro c hc
      simp [applyDeckOp] at hc
  | draw rands =>
      have horder : ∀ c ∈ effectiveOrder rands s, c.type = CardType.card := by
        unfold effectiveOrder
        by_cases h0 : s.order.length = 0
        · simpa [h0] using shuffle_mem_kind rands s.cards hs.1
        · simpa [h0] using hs.2
      have happ : applyDeckOp s (DeckOp.draw rands) = drawNext rands s := rfl
      rw [happ]
      by_cases ht : (effectiveOrder rands s).length = 0
      · rw [drawNext_eq_degenerate rands s ht]
        refine ⟨hs, ?_⟩
        intro c hc
        exact hs.1 c (List.getElem?_mem hc)
      · rw [drawNext_eq_populate rands s ht]
        refine ⟨⟨hs.1, horder⟩, ?_⟩
        intro c hc
        exact horder c (List.getElem?_mem hc)

theorem applyDeckOps_drawn_kind :
    ∀ (ops : List DeckOp) (s : DeckState), deckAllDrawableKind s →
      ∀ oc ∈ (applyDeckOps s ops).2, ∀ c, oc = some c → c.type = CardType.card := by
  intro ops
  induction ops with
  | nil => intro s _ oc hoc; simp [applyDeckOps] at hoc
  | cons op ops ih =>
      intro s hs oc hoc c hc
      have hpres := applyDeckOp_preserves s op hs
      simp only [applyDeckOps, List.mem_cons] at hoc
      cases hoc with
      | inl heq => exact hpres.2 c (heq ▸ hc)
      | inr hmem => exact ih (applyDeckOp s op).1 hpres.1 oc hmem c hc

theorem initialDeckState_kind : deckAllDrawableKind initialDeckState := by
  constructor
  · intro c hc
    have := List.of_mem_filter hc
    simpa using this
  · intro c hc
    simp [initialDeckState] at hc

/-- C10: starting from the app's initial deck state (catalog =
`drawableCards`, the catalog filtered to kind `"card"`), any sequence of
`drawNext` and re-shuffle operations only ever produces cards of kind
`"card"` — a rules or placeholder card is never drawn. -/
theorem drawn_cards_are_drawable_kind (ops : List DeckOp) (oc : Option Card) (c : Card)
    (h1 : oc ∈ (applyDeckOps initialDeckState ops).2) (h2 : oc = some c) :
    c.type = CardType.card :=
  applyDeckOps_drawn_kind ops initialDeckState initialDeckState_kind oc h1 c h2

/-- Witness for `drawn_cards_are_drawable_kind`: one draw from the initial
state produces the mycelial-network card, which has kind `"card"`. -/
theorem drawn_cards_are_drawable_kind_witness :
    some mycelialNetworkCard ∈
        (applyDeckOps initialDeckState [DeckOp.draw (fun _ => 0)]).2 ∧
      mycelialNetworkCard.type = CardType.card :=
  ⟨by decide,
    drawn_cards_are_drawable_kind [DeckOp.draw (fun _ => 0)]
      (some mycelialNetworkCard) mycelialNetworkCard (by decide) rfl⟩

/- ### History log (`recordHistory` in `app/index.tsx`) -/

/-- `HistoryEntry`: `{ id, title, drawnAt }` as recorded by `recordHistory`. -/
structure HistoryEntry where
  id : String
  title : String
  drawnAt : String
deriving DecidableEq

/-- The entry literal
`{ id: card.id, title: card.title, drawnAt: new Date().toISOString() }`;
the timestamp string is passed in explicitly. -/
def historyEntryOf (card : Card) (now : String) : HistoryEntry :=
  { id := card.id
    title := card.title
    drawnAt := now }

/-- `recordHistory` of `app/index.tsx`: prepend the new entry and
`.slice(0, 200)`. -/
def recordHistory (card : Card) (now : String) (prev : List HistoryEntry) :
    List HistoryEntry :=
  (historyEntryOf card now :: prev).take 200

/-- C8: recording a draw puts the new entry at index 0 and caps the log at
200 entries; when the log already holds 200 entries the result still holds
exactly 200, the oldest (last) entry is evicted and the 199 other previous
entries are kept in order (`dropLast`). -/
theorem recordHistory_spec (card : Card) (now : String) (prev : List HistoryEntry) :
    (recordHistory card now prev).head? = some (historyEntryOf card now) ∧
    (recordHistory card now prev).length = min (prev.length + 1) 200 ∧
    (prev.length = 200 →
      recordHistory card now prev = historyEntryOf card now :: prev.dropLast ∧
      (recordHistory card now prev).length = 200) := by
  refine ⟨?_, ?_, ?_⟩
  · unfold recordHistory
    rw [show (200 : Nat) = 199 + 1 from rfl, List.take_succ_cons]
    rfl
  · unfold recordHistory
    rw [List.length_take, List.length_cons, Nat.min_comm]
  · intro h
    constructor
    · unfold recordHistory
      rw [show (200 : Nat) = 199 + 1 from rfl, List.take_succ_cons,
        List.dropLast_eq_take, h]
    · unfold recordHistory
      rw [List.length_take, List.length_cons, h]
      decide

/-- Witness for `recordHistory_spec` on a concrete 200-entry log. -/
theorem recordHistory_spec_witness :
    (List.replicate 200 (historyEntryOf mycelialNetworkCard "t0")).length = 200 ∧
      recordHistory mycelialNetworkCard "t1"
          (List.replicate 200 (historyEntryOf mycelialNetworkCard "t0")) =
        historyEntryOf mycelialNetworkCard "t1" ::
          (List.replicate 200 (historyEntryOf mycelialNetworkCard "t0")).dropLast :=
  ⟨by rw [List.length_replicate],
    ((recordHistory_spec mycelialNetworkCard "t1" _).2.2 (by rw [List.length_replicate])).1⟩

/- ### Journal parsing (`parseStoredJournals` in `app/index.tsx`) -/

/-- Abstract JSON values, the possible results of `JSON.parse`. -/
inductive Json where
  | str (s : String)
  | num (q : ℚ)
  | bool (b : Bool)
  | null
  | arr (items : List Json)
  | obj (fields : List (String × Json))

/-- `JournalEntry`: `{ id, cardId, entry, createdAt }`. -/
structure JournalEntry where
  id : String
  cardId : String
  entry : String
  createdAt : String
deriving DecidableEq

/-- `new Date(0).toISOString()`, the constant `createdAt` given to every
legacy entry. -/
def epochIso : String := "1970-01-01T00:00:00.000Z"

/-- `String.prototype.trim`: strip whitespace from both ends (embedded
directly on the character list so it evaluates by kernel reduction). -/
def jsTrim (s : String) : String :=
  String.mk (((s.data.dropWhile Char.isWhitespace).reverse.dropWhile
    Char.isWhitespace).reverse)

/-- Property lookup on a parsed JSON object (`JSON.parse` yields unique
keys, so first-match lookup is exact). -/
def jsonObjGet (fields : List (String × Json)) (key : String) : Option Json :=
  (fields.find? (fun p => p.1 == key)).map (fun p => p.2)

/-- `typeof v === "string"` projection. -/
def asString : Option Json → Option String
  | some (Json.str s) => some s
  | _ => none

/-- The array-branch item filter of `parseStoredJournals`: keep an item iff
it is an object whose `id`, `cardId`, `entry` and `createdAt` properties
are all strings, projected to the canonical `JournalEntry` shape. -/
def journalEntryOfJson : Json → Option JournalEntry
  | Json.obj fields =>
      match asString (jsonObjGet fields "id"), asString (jsonObjGet fields "cardId"),
          asString (jsonObjGet fields "entry"), asString (jsonObjGet fields "createdAt") with
      | some i, some c, some e, some t =>
          some { id := i, cardId := c, entry := e, createdAt := t }
      | _, _, _, _ => none
  | _ => none

/-- The legacy-branch filter
`.filter(([, entry]) => typeof entry === "string" && entry.trim().length)`:
the key/value pairs whose value is a string with non-empty trim. -/
def legacyKeptPairs (fields : List (String × Json)) : List (String × String) :=
  fields.filterMap (fun p =>
    match p.2 with
    | Json.str s => if (jsTrim s).length = 0 then none else some (p.1, s)
    | _ => none)

/-- The legacy-branch map
`.map(([cardId, entry], index) => ({ id: legacy-<cardId>-<index>, cardId,
entry: entry.trim(), createdAt: new Date(0).toISOString() }))` applied to
the kept pairs (the index is the post-filter position). -/
def legacyEntries (fields : List (String × Json)) : List JournalEntry :=
  (legacyKeptPairs fields).enum.map (fun q =>
    { id := "legacy-" ++ q.2.1 ++ "-" ++ toString q.1
      cardId := q.2.1
      entry := jsTrim q.2.2
      createdAt := epochIso })

/-- The `.sort((a, b) => new Date(b.createdAt).getTime() -
new Date(a.createdAt).getTime())` step: a stable sort, descending by
`dateMillis createdAt` (`dateMillis` stands for `new Date(·).getTime()`). -/
def sortByCreatedAtDesc (dateMillis : String → Int) (entries : List JournalEntry) :
    List JournalEntry :=
  entries.mergeSort (fun a b => decide (dateMillis b.createdAt ≤ dateMillis a.createdAt))

/-- `parseStoredJournals` of `app/index.tsx`, on the abstract result of
`JSON.parse(raw)` (`none` is a parse exception, caught and turned into
`[]`): an array parses item-wise through `journalEntryOfJson`; any other
object is the backward-compatible v1 shape `Record<cardId, entry>`;
every other value parses to `[]`. -/
def parseStoredJournals (dateMillis : String → Int) : Option Json → List JournalEntry
  | none => []
  | some (Json.arr items) => sortByCreatedAtDesc dateMillis (items.filterMap journalEntryOfJson)
  | some (Json.obj fields) => sortByCreatedAtDesc dateMillis (legacyEntries fields)
  | some _ => []

theorem enum_map_snd_comp {α β : Type} (l : List α) (g : α → β) :
    l.enum.map (fun q => g q.2) = l.map g := by
  rw [show (fun q : Nat × α => g q.2) = g ∘ Prod.snd from rfl, ← List.map_map,
    List.enum_map_snd]

/-- C9 (amended): parsing the legacy flat-map shape produces exactly one
entry per key whose value is a string that is non-empty after trimming,
with `cardId` the key and `entry` the stored text with leading/trailing
whitespace trimmed (stated up to the permutation the final
sort-by-`createdAt` performs; every legacy entry carries the same epoch
timestamp); in particular `{"card-1": "hello"}` parses to exactly the one
entry `cardId="card-1"`, `entry="hello"`, and keys whose value is empty,
blank or not a string produce no entry. -/
theorem parseStoredJournals_legacy_spec (dateMillis : String → Int)
    (fields : List (String × Json)) :
    ((parseStoredJournals dateMillis (some (Json.obj fields))).map
        (fun e => (e.cardId, e.entry))).Perm
      ((legacyKeptPairs fields).map (fun p => (p.1, jsTrim p.2))) ∧
    parseStoredJournals dateMillis (some (Json.obj [("card-1", Json.str "hello")])) =
      [{ id := "legacy-card-1-0", cardId := "card-1", entry := "hello", createdAt := epochIso }] := by
  constructor
  · have hmap : (legacyEntries fields).map (fun e => (e.cardId, e.entry)) =
        (legacyKeptPairs fields).map (fun p => (p.1, jsTrim p.2)) := by
      unfold legacyEntries
      rw [List.map_map]
      exact enum_map_snd_comp (legacyKeptPairs fields) (fun p => (p.1, jsTrim p.2))
    have hperm := (List.mergeSort_perm (legacyEntries fields)
      (fun a b => decide (dateMillis b.createdAt ≤ dateMillis a.createdAt))).map
        (fun e => (e.cardId, e.entry))
    show ((sortByCreatedAtDesc dateMillis (legacyEntries fields)).map
        (fun e => (e.cardId, e.entry))).Perm _
    rw [← hmap]
    exact hperm
  · have h1 : legacyEntries [("card-1", Json.str "hello")] =
        [{ id := "legacy-card-1-0", cardId := "card-1", entry := "hello", createdAt := epochIso }] := by
      decide
    show sortByCreatedAtDesc dateMillis (legacyEntries [("card-1", Json.str "hello")]) = _
    rw [h1]
    unfold sortByCreatedAtDesc
    simp

/-- Witness for `parseStoredJournals_legacy_spec` at a concrete clock and a
concrete two-key store (one qualifying, one blank). -/
theorem parseStoredJournals_legacy_spec_witness :
    ((parseStoredJournals (fun _ => 0)
        (some (Json.obj [("card-1", Json.str "hello"), ("card-2", Json.str "  ")]))).map
        (fun e => (e.cardId, e.entry))).Perm
      ((legacyKeptPairs [("card-1", Json.str "hello"), ("card-2", Json.str "  ")]).map
        (fun p => (p.1, jsTrim p.2))) :=
  (parseStoredJournals_legacy_spec (fun _ => 0)
    [("card-1", Json.str "hello"), ("card-2", Json.str "  ")]).1

/-- C9 counterexample to the claim as stated: for the stored legacy map
`{"card-1": " hello "}` the produced entry text is the trimmed `"hello"`,
not the stored text `" hello "`. -/
theorem parseStoredJournals_trims_cex :
    (parseStoredJournals (fun _ => 0) (some (Json.obj [("card-1", Json.str " hello ")]))).map
        (fun e => e.entry) = ["hello"] ∧
      (" hello " : String) ≠ "hello" := by
  constructor
  · have h1 : legacyEntries [("card-1", Json.str " hello ")] =
        [{ id := "legacy-card-1-0", cardId := "card-1", entry := "hello", createdAt := epochIso }] := by
      decide
    show (sortByCreatedAtDesc (fun _ => 0)
        (legacyEntries [("card-1", Json.str " hello ")])).map (fun e => e.entry) = _
    rw [h1]
    unfold sortByCreatedAtDesc
    simp
  · decide

/- ### Triple draw (`drawTripleCards` in `app/index.tsx`) -/

/-- The result of one `drawTripleCards` invocation: the final deck state,
the three drawn cards, the derived UI state and the persisted values. -/
structure TripleDrawOutcome where
  deck : DeckState
  tripleCards : List (Option Card)
  activeTripleCardIndex : Nat
  currentCard : Option Card
  history : List HistoryEntry
  lastCardPersisted : Option String
  isFront : Bool
  autoFlipNext : Bool
deriving DecidableEq

/-- `drawTripleCards` of `app/index.tsx`: three `drawNext` calls threading
the deck state (`randsFam i` is the random stream available to draw `i`),
`setTripleCards(drawnCards)`, `setActiveTripleCardIndex(0)`,
`setCurrentCard(drawnCards[0] ?? null)`, `recordHistory` on each drawn card
in draw order, `persistLastCard(drawnCards[0])` when it exists
(`recordHistory` takes an actual card, so a hypothetical undefined draw
from a degenerate deck — never reachable with a populated catalog — records
nothing), and `setIsFront(!autoFlip)`. -/
def drawTripleCards (randsFam : Nat → Nat → ℚ) (now : String) (prevDeck : DeckState)
    (prevHistory : List HistoryEntry) (autoFlip : Bool) : TripleDrawOutcome :=
  let r0 := drawNext (randsFam 0) prevDeck
  let r1 := drawNext (randsFam 1) r0.1
  let r2 := drawNext (randsFam 2) r1.1
  let drawnCards : List (Option Card) := [r0.2, r1.2, r2.2]
  { deck := r2.1
    tripleCards := drawnCards
    activeTripleCardIndex := 0
    currentCard := (drawnCards.head?).join
    history := drawnCards.foldl
      (fun h oc => match oc with
        | some c => recordHistory c now h
        | none => h) prevHistory
    lastCardPersisted := ((drawnCards.head?).join).map (fun c => c.id)
    isFront := !autoFlip
    autoFlipNext := autoFlip }

theorem drawNext_order_ne_nil (rands : Nat → ℚ) (s : DeckState) (h : s.order ≠ []) :
    (drawNext rands s).1.order = s.order := by
  rw [drawNext_fst_of_order_ne_nil rands s h]

/-- C5 (amended): on a confirmed draw in three-card mode
(`handleConfirmSelection(true)` with `drawMode === "triple"` invokes
`drawTripleCards(true)`), `drawNext` is invoked exactly three times
threading the deck state, each of the three drawn cards is recorded into
history (in draw order, so the third drawn card's entry ends up at index
0), and the FIRST drawn card — the one displayed as the current card — is
persisted as the "last card", not the third. -/
theorem drawTripleCards_spec (randsFam : Nat → Nat → ℚ) (now : String)
    (s : DeckState) (prevHistory : List HistoryEntry) (autoFlip : Bool)
    (h : s.order ≠ []) :
    ∃ c0 c1 c2 : Card,
      (drawTripleCards randsFam now s prevHistory autoFlip).tripleCards =
        [some c0, some c1, some c2] ∧
      (drawTripleCards randsFam now s prevHistory autoFlip).history =
        recordHistory c2 now (recordHistory c1 now (recordHistory c0 now prevHistory)) ∧
      (drawTripleCards randsFam now s prevHistory autoFlip).lastCardPersisted =
        some c0.id ∧
      (drawTripleCards randsFam now s prevHistory autoFlip).deck =
        (drawNext (randsFam 2)
          (drawNext (randsFam 1) (drawNext (randsFam 0) s).1).1).1 := by
  have h0 : (drawNext (randsFam 0) s).1.order = s.order := drawNext_order_ne_nil _ s h
  have h1 : (drawNext (randsFam 1) (drawNext (randsFam 0) s).1).1.order = s.order := by
    rw [drawNext_order_ne_nil _ _ (by rw [h0]; exact h), h0]
  obtain ⟨c0, hc0⟩ : ∃ c0, (drawNext (randsFam 0) s).2 = some c0 := by
    rw [drawNext_snd_of_order_ne_nil _ s h]
    exact List.getElem?_eq_getElem (Nat.mod_lt _ (List.length_pos.mpr h)) ▸
      ⟨_, rfl⟩
  obtain ⟨c1, hc1⟩ : ∃ c1, (drawNext (randsFam 1) (drawNext (randsFam 0) s).1).2 = some c1 := by
    rw [drawNext_snd_of_order_ne_nil _ _ (by rw [h0]; exact h), h0]
    exact List.getElem?_eq_getElem (Nat.mod_lt _ (List.length_pos.mpr h)) ▸
      ⟨_, rfl⟩
  obtain ⟨c2, hc2⟩ : ∃ c2,
      (drawNext (randsFam 2) (drawNext (randsFam 1) (drawNext (randsFam 0) s).1).1).2 = some c2 := by
    rw [drawNext_snd_of_order_ne_nil _ _ (by rw [h1]; exact h), h1]
    exact List.getElem?_eq_getElem (Nat.mod_lt _ (List.length_pos.mpr h)) ▸
      ⟨_, rfl⟩
  refine ⟨c0, c1, c2, ?_, ?_, ?_, ?_⟩
  · simp only [drawTripleCards, hc0, hc1, hc2]
  · simp only [drawTripleCards, hc0, hc1, hc2]
    rfl
  · simp only [drawTripleCards, hc0, hc1, hc2]
    rfl
  · simp only [drawTripleCards]

/-- Witness for `drawTripleCards_spec` on a concrete three-card order. -/
theorem drawTripleCards_spec_witness :
    (({ cards := []
        order := [createPlaceholderCard 2, createPlaceholderCard 3, createPlaceholderCard 4]
        index := 0 } : DeckState).order ≠ [] ∧
      ∃ c0 c1 c2 : Card,
        (drawTripleCards (fun _ _ => 0) "t"
          { cards := []
            order := [createPlaceholderCard 2, createPlaceholderCard 3, createPlaceholderCard 4]
            index := 0 } [] true).tripleCards = [some c0, some c1, some c2] ∧
        (drawTripleCards (fun _ _ => 0) "t"
          { cards := []
            order := [createPlaceholderCard 2, createPlaceholderCard 3, createPlaceholderCard 4]
            index := 0 } [] true).history =
          recordHistory c2 "t" (recordHistory c1 "t" (recordHistory c0 "t" [])) ∧
        (drawTripleCards (fun _ _ => 0) "t"
          { cards := []
            order := [createPlaceholderCard 2, createPlaceholderCard 3, createPlaceholderCard 4]
            index := 0 } [] true).lastCardPersisted = some c0.id ∧
        (drawTripleCards (fun _ _ => 0) "t"
          { cards := []
            order := [createPlaceholderCard 2, createPlaceholderCard 3, createPlaceholderCard 4]
            index := 0 } [] true).deck =
          (drawNext ((fun _ _ => (0 : ℚ)) 2)
            (drawNext ((fun _ _ => (0 : ℚ)) 1)
              (drawNext ((fun _ _ => (0 : ℚ)) 0)
                { cards := []
                  order := [createPlaceholderCard 2, createPlaceholderCard 3, createPlaceholderCard 4]
                  index := 0 }).1).1).1) :=
  ⟨by decide, drawTripleCards_spec (fun _ _ => 0) "t" _ [] true (by decide)⟩

/-- C5 counterexample to the claim as stated: with order
`[card2, card3, card4]` and cursor 0, the three draws are card2, card3,
card4 in that order, yet the persisted "last card" is `card-2` (the first
drawn), not `card-4` (the most recently drawn, third one). -/
theorem drawTripleCards_lastCard_cex :
    (drawTripleCards (fun _ _ => 0) "t"
        { cards := []
          order := [createPlaceholderCard 2, createPlaceholderCard 3, createPlaceholderCard 4]
          index := 0 } [] true).tripleCards =
      [some (createPlaceholderCard 2), some (createPlaceholderCard 3),
        some (createPlaceholderCard 4)] ∧
    (drawTripleCards (fun _ _ => 0) "t"
        { cards := []
          order := [createPlaceholderCard 2, createPlaceholderCard 3, createPlaceholderCard 4]
          index := 0 } [] true).lastCardPersisted = some "card-2" ∧
    ("card-2" : String) ≠ "card-4" ∧ (createPlaceholderCard 4).id = "card-4" := by
  refine ⟨by decide, by decide, by decide, by decide⟩

/- ### Selection/confirmation state machine (`app/index.tsx`) -/

/-- `DrawMode`: `"single" | "triple"`. -/
inductive DrawMode where
  | single
  | triple
deriving DecidableEq

/-- The selection-related state of `app/index.tsx`: `drawMode`,
`selectedSlot` (single mode), `selectedSlots` (triple mode),
`isConfirmOpen` (confirm-pending flag), `isShuffling`, the `selectionAnim`
animated value (modelled at its settled target), and a log of the draws
committed so far (which `drawNextCard`/`drawTripleCards` invocation
`handleConfirmSelection(true)` fires). -/
structure SelectionState where
  drawMode : DrawMode
  selectedSlot : Option Nat
  selectedSlots : List Nat
  isConfirmOpen : Bool
  isShuffling : Bool
  selectionAnim : ℚ
  committedDraws : List DrawMode
deriving DecidableEq

/-- The idle selection state: nothing selected, no confirmation pending,
no shuffle in flight. -/
def idleSelectionState (mode : DrawMode) : SelectionState :=
  { drawMode := mode, selectedSlot := none, selectedSlots := [], isConfirmOpen := false, isShuffling := false, selectionAnim := 0, committedDraws := [] }

/-- `handleConfirmSelection` of `app/index.tsx`.  Confirmed: reset the
confirm animation, close the confirmation, clear both selections and
commit the draw for the current mode.  Cancelled: the animation runs to 0
and its completion callback closes the confirmation and clears the
selections; the model records the settled state. -/
def handleConfirmSelection (confirmed : Bool) (s : SelectionState) : SelectionState :=
  if confirmed then
    { s with selectionAnim := 0, isConfirmOpen := false, selectedSlot := none, selectedSlots := [], committedDraws := s.committedDraws ++ [s.drawMode] }
  else
    { s with selectionAnim := 0, isConfirmOpen := false, selectedSlot := none, selectedSlots := [] }

/-- `handleSelectFromFan` of `app/index.tsx` (a tap on fan slot
`slotIndex`), branch for branch: ignored while shuffling; in triple mode a
tap on a selected slot with a full selection and confirmation open
confirms; a tap on a selected slot otherwise toggles it off (closing the
confirmation when the selection drops below 3); a fourth selection is
ignored; adding the third slot opens the confirmation and starts the
confirm animation (target 1).  In single mode a second tap on the selected
slot with confirmation open confirms; any other tap selects the slot and
opens the confirmation. -/
def handleSelectFromFan (slotIndex : Nat) (s : SelectionState) : SelectionState :=
  if s.isShuffling then s
  else if s.drawMode = DrawMode.triple then
    if s.isConfirmOpen = true ∧ slotIndex ∈ s.selectedSlots ∧ s.selectedSlots.length = 3 then
      handleConfirmSelection true s
    else if slotIndex ∈ s.selectedSlots then
      let next := s.selectedSlots.filter (fun slot => slot != slotIndex)
      if next.length < 3 then
        { s with selectedSlots := next, selectionAnim := 0, isConfirmOpen := false }
      else
        { s with selectedSlots := next }
    else if 3 ≤ s.selectedSlots.length then s
    else
      let next := s.selectedSlots ++ [slotIndex]
      if next.length = 3 then
        { s with selectedSlots := next, isConfirmOpen := true, selectionAnim := 1 }
      else
        { s with selectedSlots := next }
  else
    if s.isConfirmOpen = true ∧ s.selectedSlot = some slotIndex then
      handleConfirmSelection true s
    else
      { s with selectedSlot := some slotIndex, isConfirmOpen := true, selectionAnim := 1 }

/-- The user-driven selection events: a fan-slot tap, an explicit confirm
("Yes") and an explicit cancel ("No"/dismiss). -/
inductive SelectionOp where
  | tap (slot : Nat)
  | confirm
  | cancel

def applySelectionOp (s : SelectionState) : SelectionOp → SelectionState
  | SelectionOp.tap slot => handleSelectFromFan slot s
  | SelectionOp.confirm => handleConfirmSelection true s
  | SelectionOp.cancel => handleConfirmSelection false s

def applySelectionOps (s : SelectionState) : List SelectionOp → SelectionState
  | [] => s
  | op :: ops => applySelectionOps (applySelectionOp s op) ops

/-- The number of slots a confirmed draw requires: 1 in single mode, 3 in
triple mode. -/
def requiredCount (s : SelectionState) : Nat :=
  if s.drawMode = DrawMode.single then 1 else 3

/-- The number of slots currently selected in the mode's own selection
holder. -/
def currentCount (s : SelectionState) : Nat :=
  if s.drawMode = DrawMode.single then (if s.selectedSlot.isSome then 1 else 0)
  else s.selectedSlots.length

/-- Confirmation can only be pending with the required number of slots
selected. -/
def confirmInvariant (s : SelectionState) : Prop :=
  s.isConfirmOpen = true → currentCount s = requiredCount s

theorem handleConfirmSelection_confirmOpen (confirmed : Bool) (s : SelectionState) :
    (handleConfirmSelection confirmed s).isConfirmOpen = false := by
  unfold handleConfirmSelection
  split <;> rfl

theorem handleSelectFromFan_invariant (slot : Nat) (s : SelectionState)
    (hs : confirmInvariant s) : confirmInvariant (handleSelectFromFan slot s) := by
  unfold handleSelectFromFan
  by_cases hshuf : s.isShuffling
  · rw [if_pos hshuf]; exact hs
  · rw [if_neg hshuf]
    by_cases hmode : s.drawMode = DrawMode.triple
    · rw [if_pos hmode]
      have hnsingle : ¬ s.drawMode = DrawMode.single := by
        rw [hmode]; intro hc; cases hc
      by_cases hcommit : s.isConfirmOpen = true ∧ slot ∈ s.selectedSlots ∧
          s.selectedSlots.length = 3
      · rw [if_pos hcommit]
        intro h
        rw [handleConfirmSelection_confirmOpen] at h
        cases h
      · rw [if_neg hcommit]
        by_cases hmem : slot ∈ s.selectedSlots
        · rw [if_pos hmem]
          by_cases hlt : (s.selectedSlots.filter (fun x => x != slot)).length < 3
          · rw [if_pos hlt]
            intro h
            cases h
          · rw [if_neg hlt]
            intro h
            have hopen : s.isConfirmOpen = true := h
            have hlen : s.selectedSlots.length = 3 := by
              have hcur := hs hopen
              unfold currentCount requiredCount at hcur
              rw [if_neg hnsingle, if_neg hnsingle] at hcur
              exact hcur
            exact absurd ⟨hopen, hmem, hlen⟩ hcommit
        · rw [if_neg hmem]
          by_cases hfull : 3 ≤ s.selectedSlots.length
          · rw [if_pos hfull]; exact hs
          · rw [if_neg hfull]
            by_cases hthree : (s.selectedSlots ++ [slot]).length = 3
            · rw [if_pos hthree]
              intro _
              unfold currentCount requiredCount
              rw [if_neg hnsingle, if_neg hnsingle]
              exact hthree
            · rw [if_neg hthree]
              intro h
              have hopen : s.isConfirmOpen = true := h
              have hlen : s.selectedSlots.length = 3 := by
                have hcur := hs hopen
                unfold currentCount requiredCount at hcur
                rw [if_neg hnsingle, if_neg hnsingle] at hcur
                exact hcur
              exact absurd (hlen ▸ Nat.le_refl 3) hfull
    · rw [if_neg hmode]
      have hsingle : s.drawMode = DrawMode.single := by
        cases hD : s.drawMode
        · rfl
        · exact absurd hD hmode
      by_cases hcommit : s.isConfirmOpen = true ∧ s.selectedSlot = some slot
      · rw [if_pos hcommit]
        intro h
        rw [handleConfirmSelection_confirmOpen] at h
        cases h
      · rw [if_neg hcommit]
        intro _
        unfold currentCount requiredCount
        rw [if_pos hsingle, if_pos hsingle]
        rfl

theorem applySelectionOps_invariant (ops : List SelectionOp) :
    ∀ s : SelectionState, confirmInvariant s →
      confirmInvariant (applySelectionOps s ops) := by
  induction ops with
  | nil => intro s hs; exact hs
  | cons op ops ih =>
      intro s hs
      refine ih (applySelectionOp s op) ?_
      cases op with
      | tap slot => exact handleSelectFromFan_invariant slot s hs
      | confirm =>
          intro h
          rw [show applySelectionOp s SelectionOp.confirm =
            handleConfirmSelection true s from rfl,
            handleConfirmSelection_confirmOpen] at h
          cases h
      | cancel =>
          intro h
          rw [show applySelectionOp s SelectionOp.cancel =
            handleConfirmSelection false s from rfl,
            handleConfirmSelection_confirmOpen] at h
          cases h

/-- C6: (1) after any sequence of taps and confirm/cancel actions from the
idle state, the confirm-pending flag is set only with the required number
of slots selected (1 in single mode, 3 in triple mode); (2) in triple mode
a tap on an already-selected slot before the required count removes it and
leaves confirm-pending false; (3) in particular, with slots `[2, 5]`
selected in triple mode, tapping slot 2 leaves `[5]` with confirm-pending
false; (4) a tap on an already-selected slot while confirm-pending with a
full selection commits the draw and clears the selection. -/
theorem selection_confirm_pending_spec :
    (∀ (mode : DrawMode) (ops : List SelectionOp),
        (applySelectionOps (idleSelectionState mode) ops).isConfirmOpen = true →
          currentCount (applySelectionOps (idleSelectionState mode) ops) =
            requiredCount (applySelectionOps (idleSelectionState mode) ops)) ∧
    (∀ (s : SelectionState) (slot : Nat),
        s.isShuffling = false → s.drawMode = DrawMode.triple →
        slot ∈ s.selectedSlots → s.selectedSlots.length < 3 →
          (handleSelectFromFan slot s).selectedSlots =
            s.selectedSlots.filter (fun x => x != slot) ∧
          (handleSelectFromFan slot s).isConfirmOpen = false) ∧
    ((handleSelectFromFan 2
        { idleSelectionState DrawMode.triple with selectedSlots := [2, 5] }).selectedSlots =
          [5] ∧
      (handleSelectFromFan 2
        { idleSelectionState DrawMode.triple with selectedSlots := [2, 5] }).isConfirmOpen =
          false) ∧
    (∀ (s : SelectionState) (slot : Nat),
        s.isShuffling = false → s.drawMode = DrawMode.triple →
        s.isConfirmOpen = true → slot ∈ s.selectedSlots → s.selectedSlots.length = 3 →
          (handleSelectFromFan slot s).committedDraws =
            s.committedDraws ++ [DrawMode.triple] ∧
          (handleSelectFromFan slot s).selectedSlots = [] ∧
          (handleSelectFromFan slot s).selectedSlot = none ∧
          (handleSelectFromFan slot s).isConfirmOpen = false) := by
  refine ⟨?_, ?_, ?_, ?_⟩
  · intro mode ops
    exact applySelectionOps_invariant ops (idleSelectionState mode) (fun h => by cases h)
  · intro s slot hshuf hmode hmem hlt
    have hshuf' : ¬ s.isShuffling := by rw [hshuf]; intro hc; cases hc
    have hncommit : ¬ (s.isConfirmOpen = true ∧ slot ∈ s.selectedSlots ∧
        s.selectedSlots.length = 3) := by
      intro hc
      omega
    have hflt : (s.selectedSlots.filter (fun x => x != slot)).length < 3 :=
      Nat.lt_of_le_of_lt (List.length_filter_le _ _) hlt
    unfold handleSelectFromFan
    rw [if_neg hshuf', if_pos hmode, if_neg hncommit, if_pos hmem, if_pos hflt]
    exact ⟨rfl, rfl⟩
  · constructor
    · decide
    · decide
  · intro s slot hshuf hmode hopen hmem hlen
    have hshuf' : ¬ s.isShuffling := by rw [hshuf]; intro hc; cases hc
    unfold handleSelectFromFan
    rw [if_neg hshuf', if_pos hmode, if_pos ⟨hopen, hmem, hlen⟩]
    unfold handleConfirmSelection
    rw [if_pos rfl, hmode]
    exact ⟨rfl, rfl, rfl, rfl⟩

/-- Witness for `selection_confirm_pending_spec`: in triple mode, tapping
three distinct slots reaches confirm-pending with exactly 3 selected. -/
theorem selection_confirm_pending_spec_witness :
    (applySelectionOps (idleSelectionState DrawMode.triple)
        [SelectionOp.tap 1, SelectionOp.tap 2, SelectionOp.tap 3]).isConfirmOpen = true ∧
      currentCount (applySelectionOps (idleSelectionState DrawMode.triple)
          [SelectionOp.tap 1, SelectionOp.tap 2, SelectionOp.tap 3]) =
        requiredCount (applySelectionOps (idleSelectionState DrawMode.triple)
          [SelectionOp.tap 1, SelectionOp.tap 2, SelectionOp.tap 3]) :=
  ⟨by decide,
    selection_confirm_pending_spec.1 DrawMode.triple
      [SelectionOp.tap 1, SelectionOp.tap 2, SelectionOp.tap 3] (by decide)⟩

/- ### Card reveal state machine (`handleCardTap` in `app/index.tsx`) -/

/-- `Platform.OS` values the reveal logic branches on. -/
inductive Platform where
  | ios
  | android
  | web
deriving DecidableEq

/-- The render nodes that can occupy a face of the flip primitive:
`backNode` (card back image), `frontNode` (card face image), `detailBgNode`
(detail background only) and `detailFullNode` (detail background plus
text overlay). -/
inductive Content where
  | backImage
  | cardFace
  | detailBg
  | detailFull
deriving DecidableEq

/-- The `flipPair` state: which content sits on the flip's back and front
faces. -/
structure FlipPair where
  back : Content
  front : Content
deriving DecidableEq

/-- `CARD_FLIP_DURATION_MS = 380` (`app/index.tsx`). -/
def CARD_FLIP_DURATION_MS : ℚ := 380

/-- The reveal-related state of `app/index.tsx`.  `isCardTransitioning`
is the `isCardTransitioningRef` interaction lock; `lockDurationMs`
remembers the duration the active lock was armed with (`none` when no
lock); `pendingDetailFlip`/`pendingContentSwap` model the timeouts
`detailFlipTimeoutRef`/`detailContentSwapTimeoutRef` being scheduled.
`detailBgNode` and `detailFullNode` exist exactly when the current card
has a `detailImage`, and `frontNode` exactly when a card is current, so
those guards reduce to facts about `currentCard`. -/
structure RevealState where
  platform : Platform
  currentCard : Option Card
  isFront : Bool
  isDetailMode : Bool
  flipPair : Option FlipPair
  isCardTransitioning : Bool
  lockDurationMs : Option ℚ
  pendingDetailFlip : Bool
  pendingContentSwap : Bool
deriving DecidableEq

/-- `lockCardInteraction(durationMs)`: arm the interaction lock (its
`setTimeout` release is a separate event, not part of the tap itself). -/
def lockCardInteraction (durationMs : ℚ) (s : RevealState) : RevealState :=
  { s with isCardTransitioning := true, lockDurationMs := some durationMs }

/-- The `setTimeout` body armed by `lockCardInteraction`: release the
lock.  A second tap "within the lock window" is a tap with no such release
event in between. -/
def cardLockTimeout (s : RevealState) : RevealState :=
  { s with isCardTransitioning := false, lockDurationMs := none }

/-- `handleCardTap` of `app/index.tsx`: ignored while the interaction lock
is armed, or with no current card / flip pair.  A tap on a front-facing
detail-capable card (all detail nodes present) clears pending timeouts,
arms the lock for `CARD_FLIP_DURATION_MS + 220`, flips to the back while
swapping the flip pair to (card face, detail visual) — `detailBgNode` on
iOS, `detailFullNode` elsewhere — enters detail mode and schedules the
flip to the detail front (with, off iOS/web, a later content swap to the
full detail node).  Any other tap arms the lock for
`CARD_FLIP_DURATION_MS + 80` and toggles `isFront`. -/
def handleCardTap (s : RevealState) : RevealState :=
  if s.isCardTransitioning then s
  else
    match s.currentCard, s.flipPair with
    | some card, some _ =>
        if card.detailImage ∧ s.isDetailMode = false ∧ s.isFront = true then
          let detailFlipFront :=
            if s.platform = Platform.ios then Content.detailBg else Content.detailFull
          let s1 := lockCardInteraction (CARD_FLIP_DURATION_MS + 220)
            { s with pendingDetailFlip := false, pendingContentSwap := false }
          let s2 := { s1 with
            isFront := false
            flipPair := some { back := Content.cardFace, front := detailFlipFront }
            isDetailMode := true }
          if s.platform = Platform.web then
            { s2 with pendingDetailFlip := true }
          else if s.platform = Platform.ios then
            { s2 with pendingDetailFlip := true }
          else
            { s2 with pendingDetailFlip := true, pendingContentSwap := true }
        else if card.detailImage ∧ s.isDetailMode = true then
          { lockCardInteraction (CARD_FLIP_DURATION_MS + 80) s with isFront := !s.isFront }
        else
          { lockCardInteraction (CARD_FLIP_DURATION_MS + 80) s with isFront := !s.isFront }
    | _, _ => s

theorem handleCardTap_locked (s : RevealState) (h : s.isCardTransitioning = true) :
    handleCardTap s = s := by
  unfold handleCardTap
  rw [if_pos h]

theorem handleCardTap_cases (s : RevealState) :
    handleCardTap s = s ∨
      ((handleCardTap s).isCardTransitioning = true ∧
        ∃ d, (handleCardTap s).lockDurationMs = some d ∧ CARD_FLIP_DURATION_MS < d) := by
  unfold handleCardTap
  by_cases hlock : s.isCardTransitioning
  · rw [if_pos hlock]
    exact Or.inl rfl
  · rw [if_neg hlock]
    cases s.currentCard with
    | none => exact Or.inl rfl
    | some card =>
      cases s.flipPair with
      | none => exact Or.inl rfl
      | some pair =>
        right
        dsimp only
        by_cases hdetail : card.detailImage ∧ s.isDetailMode = false ∧ s.isFront = true
        · rw [if_pos hdetail]
          by_cases hweb : s.platform = Platform.web
          · rw [if_pos hweb]
            refine ⟨rfl, CARD_FLIP_DURATION_MS + 220, rfl, by norm_num [CARD_FLIP_DURATION_MS]⟩
          · rw [if_neg hweb]
            by_cases hios : s.platform = Platform.ios
            · rw [if_pos hios]
              refine ⟨rfl, CARD_FLIP_DURATION_MS + 220, rfl, by norm_num [CARD_FLIP_DURATION_MS]⟩
            · rw [if_neg hios]
              refine ⟨rfl, CARD_FLIP_DURATION_MS + 220, rfl, by norm_num [CARD_FLIP_DURATION_MS]⟩
        · rw [if_neg hdetail]
          by_cases hdm : card.detailImage ∧ s.isDetailMode = true
          · rw [if_pos hdm]
            refine ⟨rfl, CARD_FLIP_DURATION_MS + 80, rfl, by norm_num [CARD_FLIP_DURATION_MS]⟩
          · rw [if_neg hdm]
            refine ⟨rfl, CARD_FLIP_DURATION_MS + 80, rfl, by norm_num [CARD_FLIP_DURATION_MS]⟩

theorem handleCardTap_locks (s : RevealState) (h : handleCardTap s ≠ s) :
    (handleCardTap s).isCardTransitioning = true ∧
      ∃ d, (handleCardTap s).lockDurationMs = some d ∧ CARD_FLIP_DURATION_MS < d :=
  (handleCardTap_cases s).resolve_left h

/-- C7: a tap arriving while the interaction lock armed by a previous tap
is still active is ignored entirely, so two taps in quick succession
(no lock release in between) produce exactly one reveal-state transition —
`handleCardTap` is idempotent, so `isFront`, `isDetailMode` and the flip
content pair change only once; moreover any tap that changes the state
arms the lock with a duration strictly longer than the flip animation
(`CARD_FLIP_DURATION_MS + 220` or `+ 80`). -/
theorem cardTap_double_tap_single_transition :
    (∀ s : RevealState, s.isCardTransitioning = true → handleCardTap s = s) ∧
    (∀ s : RevealState, handleCardTap (handleCardTap s) = handleCardTap s) ∧
    (∀ s : RevealState, handleCardTap s ≠ s →
        (handleCardTap s).isCardTransitioning = true ∧
        ∃ d, (handleCardTap s).lockDurationMs = some d ∧ CARD_FLIP_DURATION_MS < d) := by
  refine ⟨handleCardTap_locked, ?_, handleCardTap_locks⟩
  intro s
  by_cases hchange : handleCardTap s = s
  · rw [hchange, hchange]
  · exact handleCardTap_locked (handleCardTap s) (handleCardTap_locks s hchange).1

/-- Witness for `cardTap_double_tap_single_transition`: a concrete locked
state is left unchanged, and a concrete double tap on a front-facing
detail-capable card equals the single tap. -/
theorem cardTap_double_tap_single_transition_witness :
    (({ platform := Platform.android
        currentCard := some mycelialNetworkCard
        isFront := true
        isDetailMode := false
        flipPair := some { back := Content.backImage, front := Content.cardFace }
        isCardTransitioning := true
        lockDurationMs := some (CARD_FLIP_DURATION_MS + 80)
        pendingDetailFlip := false
        pendingContentSwap := false } : RevealState).isCardTransitioning = true ∧
      handleCardTap
        { platform := Platform.android
          currentCard := some mycelialNetworkCard
          isFront := true
          isDetailMode := false
          flipPair := some { back := Content.backImage, front := Content.cardFace }
          isCardTransitioning := true
          lockDurationMs := some (CARD_FLIP_DURATION_MS + 80)
          pendingDetailFlip := false
          pendingContentSwap := false } =
        { platform := Platform.android
          currentCard := some mycelialNetworkCard
          isFront := true
          isDetailMode := false
          flipPair := some { back := Content.backImage, front := Content.cardFace }
          isCardTransitioning := true
          lockDurationMs := some (CARD_FLIP_DURATION_MS + 80)
          pendingDetailFlip := false
          pendingContentSwap := false } ∧
      handleCardTap (handleCardTap
        { platform := Platform.android
          currentCard := some mycelialNetworkCard
          isFront := true
          isDetailMode := false
          flipPair := some { back := Content.backImage, front := Content.cardFace }
          isCardTransitioning := false
          lockDurationMs := none
          pendingDetailFlip := false
          pendingContentSwap := false }) =
        handleCardTap
          { platform := Platform.android
            currentCard := some mycelialNetworkCard
            isFront := true
            isDetailMode := false
            flipPair := some { back := Content.backImage, front := Content.cardFace }
            isCardTransitioning := false
            lockDurationMs := none
            pendingDetailFlip := false
            pendingContentSwap := false }) :=
  ⟨rfl,
    cardTap_double_tap_single_transition.1 _ rfl,
    cardTap_double_tap_single_transition.2.1 _⟩

/- ### Shuffle timeline (`startShuffle` in `app/index.tsx`,
`ShuffleSwirl` in `src/components/ShuffleSwirl.tsx`) -/

/-- The `SHUFFLE_TIMING` constant record of `app/index.tsx`. -/
structure ShuffleTiming where
  COLLAPSE_DURATION : ℚ
  HOLD_BEFORE_SHAKE : ℚ
  SHAKE_DURATION : ℚ
  HOLD_AFTER_SHAKE : ℚ
  SWIRL_DURATION : ℚ
  SWIRL_RESET_DURATION : ℚ
  EXPAND_DURATION : ℚ

/-- `SHUFFLE_TIMING` of `app/index.tsx`: collapse 550, hold 40, shake 1,
hold 40, swirl 800, swirl reset 1, expand 550 (milliseconds). -/
def SHUFFLE_TIMING : ShuffleTiming :=
  { COLLAPSE_DURATION := 550
    HOLD_BEFORE_SHAKE := 40
    SHAKE_DURATION := 1
    HOLD_AFTER_SHAKE := 40
    SWIRL_DURATION := 800
    SWIRL_RESET_DURATION := 1
    EXPAND_DURATION := 550 }

/-- `SHUFFLE_SHAKE_STEPS = 6`. -/
def SHUFFLE_SHAKE_STEPS : Nat := 6

/-- `SHUFFLE_TOTAL_DURATION`: the sum of the nine phase durations
(collapse, hold, shake, hold, swirl, reset, swirl, reset, expand). -/
def SHUFFLE_TOTAL_DURATION : ℚ :=
  SHUFFLE_TIMING.COLLAPSE_DURATION +
  SHUFFLE_TIMING.HOLD_BEFORE_SHAKE +
  SHUFFLE_TIMING.SHAKE_DURATION +
  SHUFFLE_TIMING.HOLD_AFTER_SHAKE +
  SHUFFLE_TIMING.SWIRL_DURATION +
  SHUFFLE_TIMING.SWIRL_RESET_DURATION +
  SHUFFLE_TIMING.SWIRL_DURATION +
  SHUFFLE_TIMING.SWIRL_RESET_DURATION +
  SHUFFLE_TIMING.EXPAND_DURATION

/-- The three animated values the shuffle timeline drives
(`fanCollapse`/`collapsePhase`, `shuffleShake`/`shakePhase`,
`shuffleSwirl`/`swirlT`). -/
inductive AnimValue where
  | collapse
  | shake
  | swirl
deriving DecidableEq

/-- One `Animated.timing(value, { toValue, duration })` description. -/
structure AnimTiming where
  target : AnimValue
  toValue : ℚ
  duration : ℚ
deriving DecidableEq

/-- One queued element of an `Animated.sequence`: a timing, a delay, or
the nested `Animated.sequence(shakeSteps)`. -/
inductive AnimStep where
  | timing (t : AnimTiming)
  | delay (d : ℚ)
  | shakeSequence (steps : List AnimTiming)
deriving DecidableEq

/-- The `shakeSteps` list: `steps` repetitions of a 0→1 and a 1→0 shake
timing, each of `stepDuration`. -/
def shakeStepsOf (stepDuration : ℚ) (steps : Nat) : List AnimTiming :=
  (List.range steps).flatMap (fun _ =>
    [{ target := AnimValue.shake, toValue := 1, duration := stepDuration },
     { target := AnimValue.shake, toValue := 0, duration := stepDuration }])

/-- Wall-clock duration of a queued step. -/
def AnimStep.totalDuration : AnimStep → ℚ
  | AnimStep.timing t => t.duration
  | AnimStep.delay d => d
  | AnimStep.shakeSequence steps => (steps.map (fun t => t.duration)).sum

/-- What one `startShuffle(initialProgress)` call does: set
`isShuffling`, set the three animated values to their instantaneous
positions, and queue the `Animated.sequence` list it then starts. -/
structure StartShuffleResult where
  isShuffling : Bool
  collapseValue : ℚ
  shakeValue : ℚ
  swirlValue : ℚ
  queued : List AnimStep
deriving DecidableEq

/-- `Animated.sequence(steps).start(cb)` invokes `cb({ finished: true })`
immediately when `steps` is empty (React Native sequence semantics), so an
empty queue is exactly the case in which `startShuffle` fires
`handleShuffleDone` with no animated transition. -/
def sequenceCompletesImmediately (steps : List AnimStep) : Bool := steps.isEmpty

/-- `startShuffle` of `app/index.tsx`, transcribed branch for branch.  The
`consumeElapsed` closure becomes the explicit `min`/subtraction chain; each
`if (...) { animationSteps.push(x) }` block is rendered as appending the
conditional singleton `(if ... then [x] else [])`, which builds the same
list in the same order. -/
def startShuffle (initialProgress : ℚ) : StartShuffleResult :=
  let progress := min (max initialProgress 0) 1
  let elapsed0 := SHUFFLE_TOTAL_DURATION * progress
  let collapseElapsed := min elapsed0 SHUFFLE_TIMING.COLLAPSE_DURATION
  let e1 := elapsed0 - collapseElapsed
  let holdBeforeShakeElapsed := min e1 SHUFFLE_TIMING.HOLD_BEFORE_SHAKE
  let e2 := e1 - holdBeforeShakeElapsed
  let shakeElapsed := min e2 SHUFFLE_TIMING.SHAKE_DURATION
  let e3 := e2 - shakeElapsed
  let holdAfterShakeElapsed := min e3 SHUFFLE_TIMING.HOLD_AFTER_SHAKE
  let e4 := e3 - holdAfterShakeElapsed
  let swirlOneElapsed := min e4 SHUFFLE_TIMING.SWIRL_DURATION
  let e5 := e4 - swirlOneElapsed
  let swirlResetOneElapsed := min e5 SHUFFLE_TIMING.SWIRL_RESET_DURATION
  let e6 := e5 - swirlResetOneElapsed
  let swirlTwoElapsed := min e6 SHUFFLE_TIMING.SWIRL_DURATION
  let e7 := e6 - swirlTwoElapsed
  let swirlResetTwoElapsed := min e7 SHUFFLE_TIMING.SWIRL_RESET_DURATION
  let e8 := e7 - swirlResetTwoElapsed
  let expandElapsed := min e8 SHUFFLE_TIMING.EXPAND_DURATION
  let collapseProgress :=
    if 0 < SHUFFLE_TIMING.COLLAPSE_DURATION then
      collapseElapsed / SHUFFLE_TIMING.COLLAPSE_DURATION
    else 1
  let expandProgress :=
    if 0 < SHUFFLE_TIMING.EXPAND_DURATION then
      expandElapsed / SHUFFLE_TIMING.EXPAND_DURATION
    else 1
  let collapseValue :=
    if collapseElapsed < SHUFFLE_TIMING.COLLAPSE_DURATION then collapseProgress
    else if 0 < expandElapsed then 1 - expandProgress
    else if 1 ≤ progress then 0
    else 1
  let shakeValue : ℚ := 0
  let swirlValue :=
    if swirlOneElapsed < SHUFFLE_TIMING.SWIRL_DURATION then
      (if 0 < SHUFFLE_TIMING.SWIRL_DURATION then
        swirlOneElapsed / SHUFFLE_TIMING.SWIRL_DURATION
      else 1)
    else if 0 < swirlResetOneElapsed then
      (if 0 < SHUFFLE_TIMING.SWIRL_RESET_DURATION then
        1 - swirlResetOneElapsed / SHUFFLE_TIMING.SWIRL_RESET_DURATION
      else 0)
    else if swirlTwoElapsed < SHUFFLE_TIMING.SWIRL_DURATION then
      (if 0 < SHUFFLE_TIMING.SWIRL_DURATION then
        swirlTwoElapsed / SHUFFLE_TIMING.SWIRL_DURATION
      else 1)
    else if 0 < swirlResetTwoElapsed then
      (if 0 < SHUFFLE_TIMING.SWIRL_RESET_DURATION then
        1 - swirlResetTwoElapsed / SHUFFLE_TIMING.SWIRL_RESET_DURATION
      else 0)
    else 0
  let stepDuration := SHUFFLE_TIMING.SHAKE_DURATION / ((SHUFFLE_SHAKE_STEPS : ℚ) * 2)
  let shakeSteps := shakeStepsOf stepDuration SHUFFLE_SHAKE_STEPS
  let collapseRemaining := SHUFFLE_TIMING.COLLAPSE_DURATION - collapseElapsed
  let holdBeforeShakeRemaining := SHUFFLE_TIMING.HOLD_BEFORE_SHAKE - holdBeforeShakeElapsed
  let holdAfterShakeRemaining := SHUFFLE_TIMING.HOLD_AFTER_SHAKE - holdAfterShakeElapsed
  let swirlOneRemaining := SHUFFLE_TIMING.SWIRL_DURATION - swirlOneElapsed
  let swirlResetOneRemaining := SHUFFLE_TIMING.SWIRL_RESET_DURATION - swirlResetOneElapsed
  let swirlTwoRemaining := SHUFFLE_TIMING.SWIRL_DURATION - swirlTwoElapsed
  let swirlResetTwoRemaining := SHUFFLE_TIMING.SWIRL_RESET_DURATION - swirlResetTwoElapsed
  let expandRemaining := SHUFFLE_TIMING.EXPAND_DURATION - expandElapsed
  let animationSteps : List AnimStep :=
    (if 0 < collapseRemaining then
      [AnimStep.timing { target := AnimValue.collapse, toValue := 1, duration := collapseRemaining }]
    else []) ++
    (if 0 < holdBeforeShakeRemaining then [AnimStep.delay holdBeforeShakeRemaining] else []) ++
    (if shakeElapsed < SHUFFLE_TIMING.SHAKE_DURATION then [AnimStep.shakeSequence shakeSteps] else []) ++
    (if 0 < holdAfterShakeRemaining then [AnimStep.delay holdAfterShakeRemaining] else []) ++
    (if 0 < swirlOneRemaining then
      [AnimStep.timing { target := AnimValue.swirl, toValue := 1, duration := swirlOneRemaining }]
    else []) ++
    (if 0 < swirlResetOneRemaining then
      [AnimStep.timing { target := AnimValue.swirl, toValue := 0, duration := swirlResetOneRemaining }]
    else []) ++
    (if 0 < swirlTwoRemaining then
      [AnimStep.timing { target := AnimValue.swirl, toValue := 1, duration := swirlTwoRemaining }]
    else []) ++
    (if 0 < swirlResetTwoRemaining then
      [AnimStep.timing { target := AnimValue.swirl, toValue := 0, duration := swirlResetTwoRemaining }]
    else []) ++
    (if 0 < expandRemaining then
      [AnimStep.timing { target := AnimValue.collapse, toValue := 0, duration := expandRemaining }]
    else [])
  { isShuffling := true
    collapseValue := collapseValue
    shakeValue := shakeValue
    swirlValue := swirlValue
    queued := animationSteps }

namespace ShuffleSwirlComp

/-- Timing constants of `src/components/ShuffleSwirl.tsx`. -/
def COLLAPSE_DURATION : ℚ := 550

def HOLD_BEFORE_SHAKE : ℚ := 40

def SHAKE_DURATION : ℚ := 1

def HOLD_AFTER_SHAKE : ℚ := 40

def EXPAND_DURATION : ℚ := 550

def SHAKE_STEPS : Nat := 6

def SWIRL_DURATION : ℚ := 800

def SWIRL_RESET_DURATION : ℚ := 1

/-- The fresh-run `Animated.sequence` the `ShuffleSwirl` component builds
and starts when it becomes visible: collapse to 1, hold, shake steps,
hold, swirl to 1, swirl reset, swirl to 1, swirl reset, expand (collapse
back to 0), all at full duration. -/
def pipeline : List AnimStep :=
  [AnimStep.timing { target := AnimValue.collapse, toValue := 1, duration := COLLAPSE_DURATION },
   AnimStep.delay HOLD_BEFORE_SHAKE,
   AnimStep.shakeSequence (shakeStepsOf (SHAKE_DURATION / ((SHAKE_STEPS : ℚ) * 2)) SHAKE_STEPS),
   AnimStep.delay HOLD_AFTER_SHAKE,
   AnimStep.timing { target := AnimValue.swirl, toValue := 1, duration := SWIRL_DURATION },
   AnimStep.timing { target := AnimValue.swirl, toValue := 0, duration := SWIRL_RESET_DURATION },
   AnimStep.timing { target := AnimValue.swirl, toValue := 1, duration := SWIRL_DURATION },
   AnimStep.timing { target := AnimValue.swirl, toValue := 0, duration := SWIRL_RESET_DURATION },
   AnimStep.timing { target := AnimValue.collapse, toValue := 0, duration := EXPAND_DURATION }]

end ShuffleSwirlComp

/- ### The resume-at-fraction analysis -/

/-- The elapsed-consumption walk of the resume algorithm: each phase
consumes `min(remaining elapsed, its duration)`; returns the per-phase
consumed amounts and the leftover. -/
def consumeWalk : ℚ → List ℚ → List ℚ × ℚ
  | e, [] => ([], e)
  | e, d :: ds =>
      let c := min e d
      let r := consumeWalk (e - c) ds
      (c :: r.1, r.2)

/-- The nine phase durations in pipeline order. -/
def phaseDurations : List ℚ :=
  [SHUFFLE_TIMING.COLLAPSE_DURATION, SHUFFLE_TIMING.HOLD_BEFORE_SHAKE,
   SHUFFLE_TIMING.SHAKE_DURATION, SHUFFLE_TIMING.HOLD_AFTER_SHAKE,
   SHUFFLE_TIMING.SWIRL_DURATION, SHUFFLE_TIMING.SWIRL_RESET_DURATION,
   SHUFFLE_TIMING.SWIRL_DURATION, SHUFFLE_TIMING.SWIRL_RESET_DURATION,
   SHUFFLE_TIMING.EXPAND_DURATION]

/-- Which of the nine phases is the shake phase. -/
def isShakePhase : List Bool :=
  [false, false, true, false, false, false, false, false, false]

/-- Per-phase consumed elapsed time when resuming at fraction `p`
(clamped to `[0, 1]` exactly as `startShuffle` clamps). -/
def shuffleConsumed (p : ℚ) : List ℚ :=
  (consumeWalk (SHUFFLE_TOTAL_DURATION * min (max p 0) 1) phaseDurations).1

/-- Walk the phases pairing each with its consumed amount, concatenating
what `entry` queues per phase. -/
def resumeQueueWalk (entry : Bool → ℚ → ℚ → List ℚ) :
    List (Bool × ℚ) → List ℚ → List ℚ
  | [], _ => []
  | _ :: _, [] => []
  | pr :: prs, c :: cs => entry pr.1 pr.2 c ++ resumeQueueWalk entry prs cs

/-- Per-phase queued durations behaviour of the code: a fully consumed
phase queues nothing; a not-fully-consumed phase queues its remaining
duration — except the shake phase, which queues its full duration. -/
def amendedResumeEntry (isShake : Bool) (duration consumed : ℚ) : List ℚ :=
  if consumed < duration then [if isShake then duration else duration - consumed] else []

/-- Modelled from the claim's words (the spec-side description, for
refinement comparison): a fully consumed phase queues nothing and every
not-fully-consumed phase — the shake phase included — queues exactly its
remaining duration. -/
def claimResumeEntry (_isShake : Bool) (duration consumed : ℚ) : List ℚ :=
  if consumed < duration then [duration - consumed] else []

/-- Total queued duration per phase under the code's behaviour. -/
def queuedDurationsAmended (p : ℚ) : List ℚ :=
  resumeQueueWalk amendedResumeEntry (isShakePhase.zip phaseDurations) (shuffleConsumed p)

/-- Total queued duration per phase under the claim's words. -/
def queuedDurationsClaim (p : ℚ) : List ℚ :=
  resumeQueueWalk claimResumeEntry (isShakePhase.zip phaseDurations) (shuffleConsumed p)

theorem consumeWalk_snd (ds : List ℚ) :
    ∀ e : ℚ, (consumeWalk e ds).2 = e - (consumeWalk e ds).1.sum := by
  induction ds with
  | nil => intro e; simp [consumeWalk]
  | cons d ds ih =>
      intro e
      simp only [consumeWalk, List.sum_cons]
      rw [ih (e - min e d)]
      ring

theorem consumeWalk_leftover_zero (ds : List ℚ) :
    ∀ e : ℚ, 0 ≤ e → (∀ d ∈ ds, 0 ≤ d) → e ≤ ds.sum → (consumeWalk e ds).2 = 0 := by
  induction ds with
  | nil =>
      intro e he _ hle
      simp only [List.sum_nil] at hle
      simp [consumeWalk, le_antisymm hle he]
  | cons d ds ih =>
      intro e he hds hle
      have hd : 0 ≤ d := hds d (List.mem_cons_self d ds)
      have hsum : 0 ≤ ds.sum := List.sum_nonneg (fun x hx => hds x (List.mem_cons_of_mem d hx))
      simp only [consumeWalk]
      refine ih (e - min e d) (by simp [sub_nonneg])
        (fun x hx => hds x (List.mem_cons_of_mem d hx)) ?_
      rw [List.sum_cons] at hle
      rcases le_total e d with hcase | hcase
      · rw [min_eq_left hcase]
        simpa using hsum
      · rw [min_eq_right hcase]
        linarith

theorem shakeStepsOf_six (d : ℚ) :
    shakeStepsOf d 6 =
      [{ target := AnimValue.shake, toValue := 1, duration := d },
       { target := AnimValue.shake, toValue := 0, duration := d },
       { target := AnimValue.shake, toValue := 1, duration := d },
       { target := AnimValue.shake, toValue := 0, duration := d },
       { target := AnimValue.shake, toValue := 1, duration := d },
       { target := AnimValue.shake, toValue := 0, duration := d },
       { target := AnimValue.shake, toValue := 1, duration := d },
       { target := AnimValue.shake, toValue := 0, duration := d },
       { target := AnimValue.shake, toValue := 1, duration := d },
       { target := AnimValue.shake, toValue := 0, duration := d },
       { target := AnimValue.shake, toValue := 1, duration := d },
       { target := AnimValue.shake, toValue := 0, duration := d }] := rfl

theorem shakeSteps_total :
    ((shakeStepsOf (SHUFFLE_TIMING.SHAKE_DURATION / ((SHUFFLE_SHAKE_STEPS : ℚ) * 2))
        SHUFFLE_SHAKE_STEPS).map (fun t => t.duration)).sum =
      SHUFFLE_TIMING.SHAKE_DURATION := by
  rw [show SHUFFLE_SHAKE_STEPS = 6 from rfl, shakeStepsOf_six]
  simp only [List.map_cons, List.map_nil, List.sum_cons, List.sum_nil]
  norm_num [SHUFFLE_TIMING]

theorem startShuffle_queued_durations (p : ℚ) :
    (startShuffle p).queued.map AnimStep.totalDuration = queuedDurationsAmended p := by
  simp only [startShuffle, queuedDurationsAmended, shuffleConsumed, phaseDurations,
    isShakePhase, consumeWalk, resumeQueueWalk, amendedResumeEntry, List.zip,
    List.zipWith_cons_cons, List.zipWith_nil_left, List.zipWith_nil_right,
    List.map_append, apply_ite (List.map AnimStep.totalDuration),
    List.map_cons, List.map_nil, AnimStep.totalDuration, shakeSteps_total,
    sub_pos]
  simp

theorem startShuffle_zero_pipeline :
    (startShuffle 0).queued = ShuffleSwirlComp.pipeline := by
  norm_num [startShuffle, SHUFFLE_TIMING, SHUFFLE_TOTAL_DURATION, SHUFFLE_SHAKE_STEPS,
    ShuffleSwirlComp.pipeline, ShuffleSwirlComp.COLLAPSE_DURATION,
    ShuffleSwirlComp.HOLD_BEFORE_SHAKE, ShuffleSwirlComp.SHAKE_DURATION,
    ShuffleSwirlComp.HOLD_AFTER_SHAKE, ShuffleSwirlComp.EXPAND_DURATION,
    ShuffleSwirlComp.SHAKE_STEPS, ShuffleSwirlComp.SWIRL_DURATION,
    ShuffleSwirlComp.SWIRL_RESET_DURATION, min_def, max_def]

theorem startShuffle_one_done :
    (startShuffle 1).collapseValue = 0 ∧ (startShuffle 1).shakeValue = 0 ∧
      (startShuffle 1).swirlValue = 0 ∧ (startShuffle 1).queued = [] := by
  norm_num [startShuffle, SHUFFLE_TIMING, SHUFFLE_TOTAL_DURATION, SHUFFLE_SHAKE_STEPS,
    min_def, max_def]

theorem shuffleConsumed_sum (p : ℚ) (h0 : 0 ≤ p) (h1 : p ≤ 1) :
    (shuffleConsumed p).sum = SHUFFLE_TOTAL_DURATION * p := by
  have hclamp : min (max p 0) 1 = p := by
    rw [max_eq_left h0, min_eq_left h1]
  unfold shuffleConsumed
  rw [hclamp]
  have htot : (0 : ℚ) ≤ SHUFFLE_TOTAL_DURATION := by
    norm_num [SHUFFLE_TOTAL_DURATION, SHUFFLE_TIMING]
  have he : (0 : ℚ) ≤ SHUFFLE_TOTAL_DURATION * p := mul_nonneg htot h0
  have hnn : ∀ d ∈ phaseDurations, (0 : ℚ) ≤ d := by
    norm_num [phaseDurations, SHUFFLE_TIMING, List.forall_mem_cons]
  have hsum : phaseDurations.sum = SHUFFLE_TOTAL_DURATION := by
    norm_num [phaseDurations, SHUFFLE_TIMING, SHUFFLE_TOTAL_DURATION]
  have hle : SHUFFLE_TOTAL_DURATION * p ≤ phaseDurations.sum := by
    rw [hsum]
    calc SHUFFLE_TOTAL_DURATION * p ≤ SHUFFLE_TOTAL_DURATION * 1 :=
          mul_le_mul_of_nonneg_left h1 htot
      _ = SHUFFLE_TOTAL_DURATION := mul_one _
  have hzero := consumeWalk_leftover_zero phaseDurations
    (SHUFFLE_TOTAL_DURATION * p) he hnn hle
  have hsnd := consumeWalk_snd phaseDurations (SHUFFLE_TOTAL_DURATION * p)
  rw [hzero] at hsnd
  linarith [hsnd]

/-- C3 (amended): resuming the shuffle timeline at fraction `p = 0` queues
exactly the `ShuffleSwirl` fresh-run pipeline (collapse, hold, shake, hold,
swirl, swirl-reset, swirl, swirl-reset, expand, all at full duration);
resuming at `p = 1` sets every phase value to its end state (collapse 0,
shake 0, swirl 0), queues no animated transition and — an empty
`Animated.sequence` invoking its callback with `finished: true` — fires the
completion callback immediately; and for every `p` in `[0, 1]` the phase
walk consumes exactly `p` times the total pipeline duration, a fully
consumed phase queues nothing, and a not-fully-consumed phase is queued
with exactly its remaining duration followed by the rest of the pipeline at
full duration — EXCEPT the shake phase, which when partially consumed is
queued at its full duration (its step list is rebuilt from the whole
`SHAKE_DURATION`), not the remaining one. -/
theorem startShuffle_resume_spec (p : ℚ) (h0 : 0 ≤ p) (h1 : p ≤ 1) :
    (startShuffle 0).queued = ShuffleSwirlComp.pipeline ∧
    ((startShuffle 1).collapseValue = 0 ∧ (startShuffle 1).shakeValue = 0 ∧
      (startShuffle 1).swirlValue = 0 ∧ (startShuffle 1).queued = [] ∧
      sequenceCompletesImmediately (startShuffle 1).queued = true) ∧
    (shuffleConsumed p).sum = SHUFFLE_TOTAL_DURATION * p ∧
    (startShuffle p).queued.map AnimStep.totalDuration = queuedDurationsAmended p :=
  ⟨startShuffle_zero_pipeline,
    ⟨startShuffle_one_done.1, startShuffle_one_done.2.1, startShuffle_one_done.2.2.1,
      startShuffle_one_done.2.2.2,
      by rw [startShuffle_one_done.2.2.2]; rfl⟩,
    shuffleConsumed_sum p h0 h1,
    startShuffle_queued_durations p⟩

/-- Witness for `startShuffle_resume_spec` at `p = 1/2`. -/
theorem startShuffle_resume_spec_witness :
    (0 : ℚ) ≤ 1/2 ∧ (1/2 : ℚ) ≤ 1 ∧
      (startShuffle (1/2)).queued.map AnimStep.totalDuration =
        queuedDurationsAmended (1/2) :=
  ⟨by norm_num, by norm_num,
    (startShuffle_resume_spec (1/2) (by norm_num) (by norm_num)).2.2.2⟩

/-- C3 counterexample to the claim as stated: at the resume fraction
`p = 1181/5566` (elapsed 590.5 ms) the shake phase is partially consumed
(0.5 of its 1 ms), yet the queued shake animation runs for its full 1 ms —
`[1, 40, 800, 1, 800, 1, 550]` — while the claim's walk demands the
remaining 0.5 ms — `[1/2, 40, 800, 1, 800, 1, 550]`. -/
theorem startShuffle_resume_claim_cex :
    (0 : ℚ) ≤ 1181/5566 ∧ (1181/5566 : ℚ) ≤ 1 ∧
      (startShuffle (1181/5566)).queued.map AnimStep.totalDuration ≠
        queuedDurationsClaim (1181/5566) := by
  refine ⟨by norm_num, by norm_num, ?_⟩
  have hL : (startShuffle (1181/5566)).queued.map AnimStep.totalDuration =
      [1, 40, 800, 1, 800, 1, 550] := by
    rw [startShuffle_queued_durations]
    norm_num [queuedDurationsAmended, shuffleConsumed, consumeWalk, phaseDurations,
      isShakePhase, resumeQueueWalk, amendedResumeEntry, SHUFFLE_TIMING,
      SHUFFLE_TOTAL_DURATION, List.zip, List.zipWith_cons_cons,
      List.zipWith_nil_left, List.zipWith_nil_right, min_def, max_def]
  have hR : queuedDurationsClaim (1181/5566) = [1/2, 40, 800, 1, 800, 1, 550] := by
    norm_num [queuedDurationsClaim, shuffleConsumed, consumeWalk, phaseDurations,
      isShakePhase, resumeQueueWalk, claimResumeEntry, SHUFFLE_TIMING,
      SHUFFLE_TOTAL_DURATION, List.zip, List.zipWith_cons_cons,
      List.zipWith_nil_left, List.zipWith_nil_right, min_def, max_def]
  rw [hL, hR]
  norm_num

end Oracle
